import Mathlib

/-
Shallow embedding of the x2telegram repository (hunghhdev/x2telegram),
covering the SQLite-backed retention store (src/x2telegram/db/database.py),
the Nitter mirror pool and HTML scraper (src/x2telegram/services/rss.py),
and the delivery steps of the processing pipeline
(src/x2telegram/core/processor.py).

Conventions used throughout:
  * SQLite TEXT comparison is byte-wise memcmp; for the ASCII ISO-8601
    strings stored in created_at this is lexicographic comparison of the
    character codepoints, embedded here as strLeList / strLe.
  * ORDER BY created_at DESC is embedded as a stable insertion sort on the
    descending created_at order (ties keep table order).
  * sqlite3 rowids (AUTOINCREMENT ids) start at 1 and increase by one per
    insert; DbState.nextId tracks the next id to hand out.
  * The tweets_cache schema of Database.create_tables has NO uniqueness
    constraint on tweet_id (only a plain index), so an INSERT never fails
    with IntegrityError for a duplicate tweet_id; store_tweet is therefore
    embedded as always inserting.
  * Python exceptions that a function catches internally are embedded as
    explicit outcome values; functions that never let exceptions escape
    are embedded as total functions.
-/

namespace X2T

/-- Byte-wise lexicographic order on character lists, matching memcmp on
ASCII strings (the SQLite TEXT collation used for created_at values). -/
def strLeList : List Char → List Char → Bool
  | [], _ => true
  | _ :: _, [] => false
  | a :: as, b :: bs =>
    if a.toNat < b.toNat then true
    else if b.toNat < a.toNat then false
    else strLeList as bs

/-- Lexicographic order on strings via strLeList. -/
def strLe (a b : String) : Bool := strLeList a.toList b.toList

/-- Contiguous-sublist test on character lists. -/
def isInfixList (sub : List Char) : List Char → Bool
  | [] => sub.isEmpty
  | c :: rest => sub.isPrefixOf (c :: rest) || isInfixList sub rest

/-- Substring containment test, embedding the Python sub-in-s check. -/
def strContains (s sub : String) : Bool := isInfixList sub.toList s.toList

/-- Tweet value object (src/x2telegram/core/models.py, class Tweet): the
five persisted fields. tweet_image is an optional reference. -/
structure Tweet where
  tweet_id : String
  tweet_url : String
  tweet_content : String
  tweet_image : Option String
  created_at : String
deriving DecidableEq, Repr

/-- One row of the tweets_cache table (Database.create_tables). -/
structure Row where
  rowid : Nat
  follower_id : Nat
  tweet_id : String
  tweet_url : String
  tweet_content : String
  tweet_image : Option String
  created_at : String
  is_analyzed : Bool
  analysis_result : Option String
  is_sent_to_telegram : Bool
  sent_at : Option String
deriving DecidableEq, Repr

/-- State of the tweets_cache table: rows in table order plus the next
AUTOINCREMENT rowid. -/
structure DbState where
  rows : List Row
  nextId : Nat
deriving DecidableEq, Repr

/-- Empty database right after create_tables. -/
def emptyDb : DbState := { rows := [], nextId := 1 }

/-- Descending created_at order on rows (ORDER BY created_at DESC). -/
def rowDesc (a b : Row) : Prop := strLe b.created_at a.created_at = true

instance : DecidableRel rowDesc :=
  fun a b => inferInstanceAs (Decidable (strLe b.created_at a.created_at = true))

/-- Stable sort of rows by created_at descending, the embedding of
ORDER BY created_at DESC (ties keep table order). -/
def sortByCreatedDesc (l : List Row) : List Row := List.insertionSort rowDesc l

/-- Database.tweet_exists: SELECT 1 FROM tweets_cache WHERE tweet_id = ?. -/
def tweet_exists (s : DbState) (tid : String) : Bool :=
  s.rows.any (fun r => r.tweet_id == tid)

/-- The follower's rows (WHERE follower_id = ?). -/
def fidRows (s : DbState) (follower_id : Nat) : List Row :=
  s.rows.filter (fun r => r.follower_id == follower_id)

/-- Rowids of the follower's delivered rows (the sent_tweet_ids query of
cleanup_old_tweets). -/
def sentIdsOf (s : DbState) (follower_id : Nat) : List Nat :=
  ((fidRows s follower_id).filter (fun r => r.is_sent_to_telegram)).map
    (fun r => r.rowid)

/-- Rowids of the follower's keep_count most recent rows by created_at
(the recent_tweet_ids query of cleanup_old_tweets). -/
def recentIdsOf (s : DbState) (follower_id keep_count : Nat) : List Nat :=
  ((sortByCreatedDesc (fidRows s follower_id)).take keep_count).map
    (fun r => r.rowid)

/-- The keep set of cleanup_old_tweets: delivered rowids together with the
most recent rowids (only membership matters, so the Python set
deduplication is immaterial). -/
def keepIdsOf (s : DbState) (follower_id keep_count : Nat) : List Nat :=
  sentIdsOf s follower_id ++ recentIdsOf s follower_id keep_count

/-- Database.cleanup_old_tweets: count the follower's rows; when more than
keep_count, keep the union of (sent rows) and (keep_count most recent rows
by created_at) and delete the rest — unless that keep set is empty, in
which case nothing is deleted. Returns (deleted count, new state). -/
def cleanup_old_tweets (s : DbState) (follower_id : Nat) (keep_count : Nat) :
    Nat × DbState :=
  if (fidRows s follower_id).length > keep_count then
    if (keepIdsOf s follower_id keep_count).isEmpty then (0, s)
    else
      let rows' := s.rows.filter
        (fun r => !(r.follower_id == follower_id) ||
          (keepIdsOf s follower_id keep_count).contains r.rowid)
      (s.rows.length - rows'.length, { s with rows := rows' })
  else
    (0, s)

/-- The row INSERTed by store_tweet for a tweet: fresh AUTOINCREMENT
rowid, analysis and delivery flags at their defaults. -/
def newRowOf (s : DbState) (t : Tweet) (follower_id : Nat) : Row :=
  { rowid := s.nextId
    follower_id := follower_id
    tweet_id := t.tweet_id
    tweet_url := t.tweet_url
    tweet_content := t.tweet_content
    tweet_image := t.tweet_image
    created_at := t.created_at
    is_analyzed := false
    analysis_result := none
    is_sent_to_telegram := false
    sent_at := none }

/-- The state right after the INSERT of store_tweet, before its cleanup
side effect. -/
def insState (s : DbState) (t : Tweet) (follower_id : Nat) : DbState :=
  { rows := s.rows ++ [newRowOf s t follower_id], nextId := s.nextId + 1 }

/-- Database.store_tweet: INSERT the row (the schema has no UNIQUE
constraint on tweet_id, so the insert always succeeds and a duplicate
tweet_id simply produces a second row), then run cleanup_old_tweets for
the follower with the default keep_count of 10, and return the new
internal rowid. -/
def store_tweet (s : DbState) (t : Tweet) (follower_id : Nat) :
    Option Nat × DbState :=
  (some s.nextId, (cleanup_old_tweets (insState s t follower_id) follower_id 10).2)

/-- Database.update_analysis_result: UPDATE ... SET is_analyzed = 1,
analysis_result = ? WHERE tweet_id = ?; returns whether any row matched. -/
def update_analysis_result (s : DbState) (tid : String) (result : String) :
    Bool × DbState :=
  let rows' := s.rows.map (fun r =>
    if r.tweet_id == tid then
      { r with is_analyzed := true, analysis_result := some result }
    else r)
  (s.rows.any (fun r => r.tweet_id == tid), { s with rows := rows' })

/-- Database.mark_as_sent: UPDATE ... SET is_sent_to_telegram = 1,
sent_at = now WHERE tweet_id = ?; returns whether any row matched. -/
def mark_as_sent (s : DbState) (tid : String) (now : String) :
    Bool × DbState :=
  let rows' := s.rows.map (fun r =>
    if r.tweet_id == tid then
      { r with is_sent_to_telegram := true, sent_at := some now }
    else r)
  (s.rows.any (fun r => r.tweet_id == tid), { s with rows := rows' })

/-- Projection of a stored row back to the Tweet value built by the query
methods (columns tweet_id, tweet_url, tweet_content, tweet_image,
created_at in that order). -/
def tweetOfRow (r : Row) : Tweet :=
  { tweet_id := r.tweet_id
    tweet_url := r.tweet_url
    tweet_content := r.tweet_content
    tweet_image := r.tweet_image
    created_at := r.created_at }

/-- Database.get_unanalyzed_tweets: rows with is_analyzed = 0, newest
first by created_at, limited, returned as (tweet, follower_id) pairs. -/
def get_unanalyzed_tweets (s : DbState) (limit : Nat) :
    List (Tweet × Nat) :=
  ((sortByCreatedDesc (s.rows.filter (fun r => !r.is_analyzed))).take limit).map
    (fun r => (tweetOfRow r, r.follower_id))

/-- Database.get_unsent_analyzed_tweets: rows with is_analyzed = 1 and
is_sent_to_telegram = 0, newest first by created_at, limited, returned as
(tweet, follower_id, analysis_result) triples. -/
def get_unsent_analyzed_tweets (s : DbState) (limit : Nat) :
    List (Tweet × Nat × Option String) :=
  ((sortByCreatedDesc
      (s.rows.filter (fun r => r.is_analyzed && !r.is_sent_to_telegram))).take
    limit).map (fun r => (tweetOfRow r, r.follower_id, r.analysis_result))

/-- Number of stored non-delivered rows for one follower. -/
def nonDeliveredCount (s : DbState) (follower_id : Nat) : Nat :=
  (s.rows.filter
    (fun r => r.follower_id == follower_id && !r.is_sent_to_telegram)).length

/-- One store/mark/prune operation on the retention store. -/
inductive DbOp where
  | store (t : Tweet) (follower_id : Nat)
  | markSent (tid : String) (now : String)
  | prune (follower_id : Nat) (keep_count : Nat)
deriving Repr

/-- Apply one operation to the database state. -/
def applyOp (s : DbState) : DbOp → DbState
  | .store t fid => (store_tweet s t fid).2
  | .markSent tid now => (mark_as_sent s tid now).2
  | .prune fid k => (cleanup_old_tweets s fid k).2

/-- Run a sequence of operations from a starting state. -/
def runOps (s : DbState) (ops : List DbOp) : DbState :=
  ops.foldl applyOp s

/-- Well-formedness of a database state: rowids are pairwise distinct and
below the next AUTOINCREMENT id. -/
def DbWF (s : DbState) : Prop :=
  (s.rows.map (fun r => r.rowid)).Nodup ∧ ∀ r ∈ s.rows, r.rowid < s.nextId

/-- The retention invariant: well-formed state whose per-source
non-delivered row count never exceeds the default keep_count of 10. -/
def DbInv (s : DbState) : Prop :=
  DbWF s ∧ ∀ f, nonDeliveredCount s f ≤ 10

/-- In-memory state of RSSService: the master mirror list, the current
working rotation, and the rate-limit table (mirror to expiry time).
Times are seconds as integers. -/
structure MirrorState where
  mirrors : List String
  working_mirrors : List String
  rate_limited_until : List (String × Int)
deriving DecidableEq, Repr

/-- Mirrors of working_mirrors that are not currently rate limited
(no table entry, or current_time strictly past the recorded expiry). -/
def availableMirrors (st : MirrorState) (now : Int) : List String :=
  st.working_mirrors.filter (fun m =>
    match st.rate_limited_until.lookup m with
    | none => true
    | some t => decide (now > t))

/-- Embedding of random.choice on a non-empty list, driven by an
arbitrary index supplied by the environment. -/
def choiceOf (l : List String) (idx : Nat) : String := l.getD (idx % l.length) ""

/-- Minimum of the values of the rate-limit table
(min of rate_limited_until.values, none on an empty table, where the
Python min() would raise ValueError). -/
def minRateLimit : List (String × Int) → Option Int
  | [] => none
  | (_, v) :: rest =>
    match minRateLimit rest with
    | none => some v
    | some w => some (min v w)

/-- One observable outcome of a single RSSService.get_working_mirror
activation: return a mirror, reset the pool and return a mirror, block
for the given number of seconds and retry, or propagate the ValueError
that min() raises on an empty rate-limit table. -/
inductive SelectOutcome where
  | chosen (m : String)
  | resetChosen (m : String)
  | sleepRetry (t : Int)
  | raisedEmpty
deriving DecidableEq, Repr

/-- RSSService.get_working_mirror, one activation: filter out rate limited
mirrors; if any remain pick one at random; otherwise compute the soonest
rate-limit expiry, and either reset the whole pool and pick from the full
master list (when the wait of max(0, soonest - now) + 1 seconds exceeds
60), or sleep that long and retry. -/
def get_working_mirror (st : MirrorState) (now : Int) (idx : Nat) :
    SelectOutcome × MirrorState :=
  let avail := availableMirrors st now
  if avail.isEmpty then
    match minRateLimit st.rate_limited_until with
    | none => (.raisedEmpty, st)
    | some next =>
      let sleepTime := max 0 (next - now) + 1
      if sleepTime > 60 then
        (.resetChosen (choiceOf st.mirrors idx),
          { st with working_mirrors := st.mirrors, rate_limited_until := [] })
      else
        (.sleepRetry sleepTime, st)
  else
    (.chosen (choiceOf avail idx), st)

/-- RSSService.mark_rate_limited: record that the mirror is unusable until
now + retry_after (dictionary assignment replaces any previous entry). -/
def mark_rate_limited (st : MirrorState) (m : String) (now retry_after : Int) :
    MirrorState :=
  { st with rate_limited_until :=
      (m, now + retry_after) :: st.rate_limited_until.filter (fun p => !(p.1 == m)) }

/-- Python list.remove: delete the first occurrence, if any. -/
def removeFirst (l : List String) (m : String) : List String :=
  match l with
  | [] => []
  | x :: xs => if x == m then xs else x :: removeFirst xs m

/-- Normalized post record produced by the scraper (the tweet dictionary
built by extract_tweet_data / find_potential_tweets). -/
structure Cand where
  id : String
  url : String
  content : String
  published : String
  author : String
  image : Option String
deriving DecidableEq, Repr

/-- Descending published order on candidates, the key order of
sorted(tweets, key=published, reverse=True). -/
def candDesc (a b : Cand) : Prop := strLe b.published a.published = true

instance : DecidableRel candDesc :=
  fun a b => inferInstanceAs (Decidable (strLe b.published a.published = true))

/-- The sorting step of parse_nitter_html: stable sort by published
descending. Every published field is a string, and string comparison is
total, so the except-branch that would fall back to source order is
unreachable; the embedded sort is a total function that never fails. -/
def sortCandidates (l : List Cand) : List Cand := List.insertionSort candDesc l

/-- Outcome of the body of one fetch attempt, as observed by the retry
loop of fetch_tweets_html: an HTTP 429 with its Retry-After value, another
non-200 status, a network/timeout error (both exception arms behave the
same), or a parsed candidate list (HTTP 200). All exceptions the Python
body catches are represented as values here. -/
inductive AttemptOutcome where
  | rateLimited (retry_after : Int)
  | httpError
  | netError
  | parsed (cands : List Cand)
deriving Repr

/-- The retry loop of RSSService.fetch_tweets_html. fuel is the number of
attempts still allowed (retry_count - attempt); oracle gives the outcome
of each attempt for a given mirror; pick abstracts the mirror returned by
get_working_mirror. Returns (candidates, mirror) on the first attempt that
parses a non-empty list, and none once the attempts are exhausted. -/
def fetchLoop (oracle : Nat → String → AttemptOutcome)
    (pick : MirrorState → String) (retry_count : Nat) (now : Int) :
    Nat → Nat → MirrorState → Option (List Cand × String)
  | _, 0, _ => none
  | attempt, fuel + 1, st =>
    let st0 :=
      if st.working_mirrors.isEmpty then { st with working_mirrors := st.mirrors }
      else st
    if st.working_mirrors.isEmpty && attempt == retry_count - 1 then none
    else
      let mirror := pick st0
      match oracle attempt mirror with
      | .rateLimited ra =>
        let st1 := mark_rate_limited st0 mirror now ra
        let st2 := { st1 with
          working_mirrors := removeFirst st1.working_mirrors mirror }
        fetchLoop oracle pick retry_count now (attempt + 1) fuel st2
      | .httpError =>
        fetchLoop oracle pick retry_count now (attempt + 1) fuel
          { st0 with working_mirrors := removeFirst st0.working_mirrors mirror }
      | .netError =>
        fetchLoop oracle pick retry_count now (attempt + 1) fuel
          { st0 with working_mirrors := removeFirst st0.working_mirrors mirror }
      | .parsed cands =>
        if cands.isEmpty then
          fetchLoop oracle pick retry_count now (attempt + 1) fuel st0
        else
          some (cands, mirror)

/-- Leading '@' stripping (username.lstrip of the at sign). -/
def stripLeadingAt (u : String) : String :=
  String.mk (u.toList.dropWhile (fun c => c == '@'))

/-- RSSService.fetch_tweets_html: reject an empty username, strip leading
at signs, then run up to retry_count attempts; (None, None) is embedded as
none. The stripped username only feeds the request URL, which the attempt
oracle abstracts. -/
def fetch_tweets_html (oracle : Nat → String → AttemptOutcome)
    (pick : MirrorState → String) (username : String) (retry_count : Nat)
    (now : Int) (st : MirrorState) : Option (List Cand × String) :=
  if username = "" then none
  else
    let _ := stripLeadingAt username
    fetchLoop oracle pick retry_count now 0 retry_count st

/-- Tweet object built by RSSService.get_tweets from one candidate
dictionary. -/
def tweetOfCand (c : Cand) : Tweet :=
  { tweet_id := c.id
    tweet_url := c.url
    tweet_content := c.content
    tweet_image := c.image
    created_at := c.published }

/-- RSSService.get_tweets: empty list when fetch_tweets_html fails,
otherwise the candidates converted to Tweet objects. -/
def get_tweets (oracle : Nat → String → AttemptOutcome)
    (pick : MirrorState → String) (username : String) (retry_count : Nat)
    (now : Int) (st : MirrorState) : List Tweet :=
  match fetch_tweets_html oracle pick username retry_count now st with
  | none => []
  | some (cands, _) => cands.map tweetOfCand

/-- Parsed HTML node: an element with tag name, attributes and children,
or a text node. The attribute list stores raw attribute strings. -/
inductive Node where
  | elem (tag : String) (attrs : List (String × String)) (children : List Node)
  | text (s : String)
deriving Repr

/-- Tag name of a node (empty for text nodes). -/
def tagOf : Node → String
  | .elem t _ _ => t
  | .text _ => ""

/-- Whether the node is an element. -/
def isElem : Node → Bool
  | .elem _ _ _ => true
  | .text _ => false

/-- Attribute lookup on an element node. -/
def attrOf : Node → String → Option String
  | .elem _ attrs _, k => attrs.lookup k
  | .text _, _ => none

/-- Children of a node. -/
def childrenOf : Node → List Node
  | .elem _ _ cs => cs
  | .text _ => []

/-- Split a character list on whitespace into non-empty words. -/
def splitWsGo : List Char → List Char → List (List Char)
  | cur, [] => if cur.isEmpty then [] else [cur.reverse]
  | cur, ch :: rest =>
    if ch.isWhitespace then
      if cur.isEmpty then splitWsGo [] rest else cur.reverse :: splitWsGo [] rest
    else
      splitWsGo (ch :: cur) rest

/-- Class tokens of a node, from its class attribute. -/
def classTokens (n : Node) : List (List Char) :=
  splitWsGo [] ((attrOf n "class").getD "").toList

/-- Whether the node carries the given CSS class. -/
def hasClass (n : Node) (c : String) : Bool := (classTokens n).contains c.toList

/-- Truthiness of element.get of the class attribute: present and
non-empty. -/
def classTruthy (n : Node) : Bool :=
  match attrOf n "class" with
  | some s => !(s == "")
  | none => false

/-- The CSS selector shapes that rss.py uses (class, tag, id, tag.class,
tag with attribute present, tag with attribute containing a substring,
descendant combinator, direct-child combinator). -/
inductive Sel where
  | tagSel (t : String)
  | clsSel (c : String)
  | idSel (i : String)
  | tagCls (t c : String)
  | tagAttrHas (t a : String)
  | tagAttrContains (t a sub : String)
  | descendant (anc d : Sel)
  | childSel (p c : Sel)
deriving Repr

/-- Each ancestor of a chain (nearest first) paired with its own
remaining ancestor chain. -/
def ancPairs : List Node → List (Node × List Node)
  | [] => []
  | a :: rest => (a, rest) :: ancPairs rest

/-- Whether a node, given its ancestor chain (nearest first), matches a
selector. -/
def matchesSel : Sel → Node → List Node → Bool
  | .tagSel t, n, _ => isElem n && (tagOf n == t)
  | .clsSel c, n, _ => hasClass n c
  | .idSel i, n, _ => attrOf n "id" == some i
  | .tagCls t c, n, _ => (tagOf n == t) && hasClass n c
  | .tagAttrHas t a, n, _ => (tagOf n == t) && (attrOf n a).isSome
  | .tagAttrContains t a sub, n, _ =>
    (tagOf n == t) &&
      (match attrOf n a with
       | some v => strContains v sub
       | none => false)
  | .descendant anc d, n, ancs =>
    matchesSel d n ancs &&
      (ancPairs ancs).any (fun p => matchesSel anc p.1 p.2)
  | .childSel p c, n, ancs =>
    matchesSel c n ancs &&
      (match ancs with
       | [] => false
       | a :: rest => matchesSel p a rest)

mutual

/-- Pre-order traversal collecting every element node paired with its
ancestor chain (nearest first). -/
def collectNode (ancs : List Node) : Node → List (Node × List Node)
  | .text _ => []
  | .elem t a cs =>
    (Node.elem t a cs, ancs) :: collectNodes (Node.elem t a cs :: ancs) cs

/-- Pre-order traversal of a node list. -/
def collectNodes (ancs : List Node) : List Node → List (Node × List Node)
  | [] => []
  | n :: ns => collectNode ancs n ++ collectNodes ancs ns

end

/-- soup.select on the whole document: every element (with its ancestor
chain) matching the selector, in document order. -/
def selectTop (root : Node) (s : Sel) : List (Node × List Node) :=
  (collectNode [] root).filter (fun p => matchesSel s p.1 p.2)

/-- element.select: matching descendants of an element, the ancestor
chains confined to the element's subtree. -/
def selectIn (el : Node) (s : Sel) : List (Node × List Node) :=
  (collectNodes [el] (childrenOf el)).filter (fun p => matchesSel s p.1 p.2)

/-- element.select_one: first matching descendant, if any. -/
def selectOne (el : Node) (s : Sel) : Option Node :=
  (selectIn el s).head?.map (fun p => p.1)

mutual

/-- Text fragments of all descendant text nodes, in document order. -/
def nodeTexts : Node → List String
  | .text s => [s]
  | .elem _ _ cs => nodesTexts cs

/-- Text fragments of a node list. -/
def nodesTexts : List Node → List String
  | [] => []
  | n :: ns => nodeTexts n ++ nodesTexts ns

end

/-- Strip leading and trailing whitespace from a character list. -/
def trimList (cs : List Char) : List Char :=
  ((cs.dropWhile Char.isWhitespace).reverse.dropWhile Char.isWhitespace).reverse

/-- element.get_text with strip=True: each text fragment stripped, then
concatenated. -/
def getTextStrip (n : Node) : String :=
  String.mk (((nodeTexts n).map (fun s => trimList s.toList)).foldr
    (fun a b => a ++ b) [])

/-- Prefix test on strings via character lists (str.startswith). -/
def strStarts (s pre : String) : Bool := pre.toList.isPrefixOf s.toList

/-- Maximal leading run of ASCII digits. -/
def takeDigits (cs : List Char) : List Char := cs.takeWhile Char.isDigit

/-- Match of the pattern status[es]?/(digits) anchored at the head of the
list: the literal word status, then optionally one of the characters e or
s (tried first, as the regex engine does), then a slash, then at least
one digit; returns the digit group. -/
def statusIdAt (cs : List Char) : Option (List Char) :=
  if ['s', 't', 'a', 't', 'u', 's'].isPrefixOf cs then
    let rest := cs.drop 6
    let viaEs : Option (List Char) :=
      match rest with
      | c :: '/' :: rest2 =>
        if c == 'e' || c == 's' then
          let ds := takeDigits rest2
          if ds.isEmpty then none else some ds
        else none
      | _ => none
    match viaEs with
    | some ds => some ds
    | none =>
      match rest with
      | '/' :: rest1 =>
        let ds := takeDigits rest1
        if ds.isEmpty then none else some ds
      | _ => none
  else none

/-- re.search of status[es]?/(digits): leftmost match of the pattern,
returning the captured digit group. -/
def findStatusId : List Char → Option String
  | [] => none
  | c :: rest =>
    match statusIdAt (c :: rest) with
    | some ds => some (String.mk ds)
    | none => findStatusId rest

/-- The regex class backslash-w (word character), ASCII approximation. -/
def wordChar (c : Char) : Bool := c.isAlphanum || c == '_'

/-- Word or whitespace character. -/
def wordSpace (c : Char) : Bool := wordChar c || c.isWhitespace

/-- Whether the anchored alternative of the cleanup regex matches the
whole remaining input: optional space, at least one word/space character,
the two-character separator sequence, then at least one word/space
character to the end. The flag records whether at least one character
precedes the separator. -/
def alt2go : Bool → List Char → Bool
  | _, [] => false
  | pre, 'Â' :: '·' :: rest => pre && !rest.isEmpty && rest.all wordSpace
  | _, c :: rest => wordSpace c && alt2go true rest

/-- Scanner for re.sub of the pattern
at-sign word+ OR anchored-dotted-line, replacing matches with the empty
string: at each position first try the at-sign alternative, and at the
very start also the anchored alternative (which consumes to the end).
The first argument is fuel, at least the input length; each step consumes
at least one character, so the zero-fuel arm is never reached from
cleanContent. -/
def cleanGo : Nat → Bool → List Char → List Char
  | 0, _, _ => []
  | _ + 1, _, [] => []
  | fuel + 1, atStart, c :: rest =>
    if c == '@' && !(rest.takeWhile wordChar).isEmpty then
      cleanGo fuel false (rest.drop (rest.takeWhile wordChar).length)
    else if atStart && alt2go false (c :: rest) then []
    else c :: cleanGo fuel false rest

/-- The content cleanup re.sub applied by find_potential_tweets. -/
def cleanContent (s : String) : String :=
  String.mk (cleanGo s.toList.length true s.toList)

/-- Whether a node is a plausible tweet container for the upward walk:
tag div, article or li with a truthy class attribute. -/
def goodContainer (n : Node) : Bool :=
  (tagOf n == "div" || tagOf n == "article" || tagOf n == "li") && classTruthy n

/-- The bounded upward walk of find_potential_tweets: up to five parent
steps, stopping early at the first plausible container. -/
def findContainerGo : Nat → Node → List Node → Node
  | 0, cur, _ => cur
  | _ + 1, cur, [] => cur
  | k + 1, _, a :: rest => if goodContainer a then a else findContainerGo k a rest

/-- Container element for a status link: five-level bounded parent walk. -/
def findContainer (link : Node) (ancs : List Node) : Node :=
  findContainerGo 5 link ancs

/-- Truthiness of an optional string (Python: None and the empty string
are falsy). -/
def truthyO : Option String → Bool
  | some s => !(s == "")
  | none => false

/-- Python str() of an optional string, as used in an f-string (None
prints as the word None). -/
def showPyOpt : Option String → String
  | none => "None"
  | some s => s

/-- The permalink selector cascade of extract_tweet_data. -/
def permalinkSelectors : List Sel :=
  [ .tagCls "a" "tweet-link"
  , .tagAttrContains "a" "href" "status"
  , .descendant (.clsSel "tweet-date") (.tagSel "a")
  , .tagAttrContains "a" "href" "/status/"
  , .tagCls "a" "Permalink"
  , .tagCls "a" "timestamp" ]

/-- The content selector cascade of extract_tweet_data. -/
def contentSelectors : List Sel :=
  [ .clsSel "tweet-content"
  , .clsSel "content"
  , .clsSel "tweet-text"
  , .clsSel "tweet-body"
  , .descendant (.clsSel "tweet") (.tagSel "p")
  , .childSel (.childSel (.clsSel "tweet") (.tagSel "div")) (.tagSel "p") ]

/-- The timestamp selector cascade of extract_tweet_data. -/
def timeSelectors : List Sel :=
  [ .descendant (.clsSel "tweet-date") (.tagSel "a")
  , .tagSel "time"
  , .clsSel "timestamp"
  , .clsSel "time" ]

/-- The author selector cascade of extract_tweet_data. -/
def authorSelectors : List Sel :=
  [ .clsSel "fullname", .clsSel "username", .clsSel "name", .clsSel "user" ]

/-- The image selector cascade of extract_tweet_data. -/
def imageSelectors : List Sel :=
  [ .clsSel "still-image"
  , .tagCls "img" "media-img"
  , .descendant (.clsSel "media") (.tagSel "img")
  , .descendant (.clsSel "attachment") (.tagSel "img")
  , .clsSel "tweet-img" ]

/-- The nine standard selector strategies tried by parse_nitter_html, in
order. -/
def standardSelectors : List Sel :=
  [ .clsSel "timeline-item"
  , .clsSel "tweet"
  , .descendant (.clsSel "timeline") (.clsSel "item")
  , .clsSel "tweet-container"
  , .tagCls "article" "tweet"
  , .descendant (.clsSel "timeline") (.tagSel "article")
  , .tagAttrHas "div" "data-tweet-id"
  , .childSel (.idSel "timeline") (.tagSel "div")
  , .childSel (.clsSel "feed") (.tagSel "div") ]

/-- First selector of the cascade whose select_one result carries an href
attribute; returns that href (the loop breaks there even when the value
is empty). -/
def firstPermalinkHref (el : Node) : List Sel → Option String
  | [] => none
  | s :: rest =>
    match selectOne el s with
    | some p =>
      match attrOf p "href" with
      | some h => some h
      | none => firstPermalinkHref el rest
    | none => firstPermalinkHref el rest

/-- The tweet_id variable of extract_tweet_data after the permalink loop:
the data-tweet-id attribute when truthy, else the digit group of the
status pattern in the found permalink, else whatever the data attribute
held. -/
def resolveTweetId (el : Node) : Option String :=
  let tid0 := attrOf el "data-tweet-id"
  if truthyO tid0 then tid0
  else
    match firstPermalinkHref el permalinkSelectors with
    | none => tid0
    | some u =>
      match findStatusId u.toList with
      | some d => some d
      | none => tid0

/-- The tweet_url variable of extract_tweet_data after the permalink
loop (before absolutization). -/
def resolveTweetUrl (el : Node) : Option String :=
  firstPermalinkHref el permalinkSelectors

/-- The timeline-header skip check of extract_tweet_data: the string
rendering of element.get of class contains the substring
timeline-header. -/
def isTimelineHeader (el : Node) : Bool :=
  strContains ((attrOf el "class").getD "") "timeline-header"

/-- The content selector cascade: text of the first matching element
(breaking there even when the text is empty), default empty. -/
def contentCascade (el : Node) : List Sel → String
  | [] => ""
  | s :: rest =>
    match selectOne el s with
    | some ce => getTextStrip ce
    | none => contentCascade el rest

/-- The timestamp cascade: title attribute of the first matching element,
else its datetime attribute, else the current time (also the default when
no selector matches). -/
def publishedCascade (el : Node) (nowIso : String) : List Sel → String
  | [] => nowIso
  | s :: rest =>
    match selectOne el s with
    | some ts =>
      match attrOf ts "title" with
      | some v => v
      | none =>
        match attrOf ts "datetime" with
        | some v => v
        | none => nowIso
    | none => publishedCascade el nowIso rest

/-- The author cascade: text of the first matching element, default the
queried username. -/
def authorCascade (el : Node) (username : String) : List Sel → String
  | [] => username
  | s :: rest =>
    match selectOne el s with
    | some ae => getTextStrip ae
    | none => authorCascade el username rest

/-- The image cascade: src of the first matching element that has one,
absolutized when relative. -/
def imageCascade (el : Node) (mirror : String) : List Sel → Option String
  | [] => none
  | s :: rest =>
    match selectOne el s with
    | some ie =>
      match attrOf ie "src" with
      | some u => some (if strStarts u "/" then mirror ++ u else u)
      | none => imageCascade el mirror rest
    | none => imageCascade el mirror rest

/-- The id field of the candidate extract_tweet_data builds: the resolved
tweet id when truthy, else the synthetic unknown_ id from the
epoch-seconds clock (the Python tweet_id-or expression). -/
def extractedId (el : Node) (now : Nat) : String :=
  if truthyO (resolveTweetId el) then (resolveTweetId el).getD ""
  else "unknown_" ++ toString now

/-- The absolutized permalink of an element (relative urls joined with
the mirror origin). -/
def extractedUrlAbs (el : Node) (mirror : String) : Option String :=
  (resolveTweetUrl el).map (fun u => if strStarts u "/" then mirror ++ u else u)

/-- The url field of the candidate: the absolutized permalink when
truthy, else the mirror/username/status fallback built from the resolved
id (the Python tweet_url-or expression). -/
def extractedUrl (el : Node) (mirror username : String) : String :=
  if truthyO (extractedUrlAbs el mirror) then (extractedUrlAbs el mirror).getD ""
  else mirror ++ "/" ++ username ++ "/status/" ++ showPyOpt (resolveTweetId el)

/-- RSSService.extract_tweet_data on one element: skip timeline headers,
resolve tweet id and permalink, drop the element when both are falsy,
absolutize the url, run the content/timestamp/author/image cascades, and
build the candidate with the synthetic unknown_ id or the
mirror/username/status fallback url when needed. now is the epoch-seconds
clock, nowIso the ISO clock string. -/
def extract_tweet_data (el : Node) (mirror username : String) (now : Nat)
    (nowIso : String) : Option Cand :=
  if isTimelineHeader el then none
  else if !truthyO (resolveTweetId el) && !truthyO (resolveTweetUrl el) then
    none
  else
    some
      { id := extractedId el now
        url := extractedUrl el mirror username
        content := contentCascade el contentSelectors
        published := publishedCascade el nowIso timeSelectors
        author := authorCascade el username authorSelectors
        image := imageCascade el mirror imageSelectors }

/-- The per-link loop of find_potential_tweets, with the processed-url
accumulator. -/
def fpLoop (mirror username nowIso : String) :
    List (Node × List Node) → List String → List Cand
  | [], _ => []
  | (link, ancs) :: rest, processed =>
    let href := (attrOf link "href").getD ""
    if processed.contains href then fpLoop mirror username nowIso rest processed
    else
      let processed' := href :: processed
      if strContains href "/status/" then
        match findStatusId href.toList with
        | some tid =>
          let container := findContainer link ancs
          let ps := selectIn container (Sel.tagSel "p")
          let content1 :=
            match ps with
            | p :: _ => getTextStrip p.1
            | [] => ""
          let content :=
            if content1 == "" then cleanContent (getTextStrip container)
            else content1
          let tweet_url := if strStarts href "/" then mirror ++ href else href
          if !(tid == "") && !(content == "") then
            { id := tid, url := tweet_url, content := content,
              published := nowIso, author := username, image := none } ::
              fpLoop mirror username nowIso rest processed'
          else fpLoop mirror username nowIso rest processed'
        | none => fpLoop mirror username nowIso rest processed'
      else fpLoop mirror username nowIso rest processed'

/-- RSSService.find_potential_tweets: scan all anchors whose href contains
the word status, deduplicate by href, and build a candidate from each
link that has a status id and non-empty nearby content. -/
def find_potential_tweets (root : Node) (mirror username nowIso : String) :
    List Cand :=
  fpLoop mirror username nowIso
    (selectTop root (Sel.tagAttrContains "a" "href" "status")) []

/-- The standard-selector cascade of parse_nitter_html: first selector
that matches at least one element AND yields at least one extracted
candidate wins. -/
def stdSelectorExtract (root : Node) (mirror username : String) (now : Nat)
    (nowIso : String) : List Sel → List Cand
  | [] => []
  | s :: rest =>
    let es := selectTop root s
    if es.isEmpty then stdSelectorExtract root mirror username now nowIso rest
    else
      let tweets := es.filterMap
        (fun p => extract_tweet_data p.1 mirror username now nowIso)
      if tweets.isEmpty then stdSelectorExtract root mirror username now nowIso rest
      else tweets

/-- RSSService.parse_nitter_html: try the standard selector strategies,
fall back to the generic find_potential_tweets scan, then sort the
candidates newest first. -/
def parse_nitter_html (root : Node) (mirror username : String) (now : Nat)
    (nowIso : String) : List Cand :=
  let tweets := stdSelectorExtract root mirror username now nowIso standardSelectors
  let tweets :=
    if tweets.isEmpty then find_potential_tweets root mirror username nowIso
    else tweets
  sortCandidates tweets

/-- Result dictionary of TelegramService.send_message as consumed by the
processor: result.get of ok with default False is okFlag. -/
structure SendResult where
  ok : Option Bool
  error : Option String
deriving Repr

/-- The ok flag the processor tests (dictionary get with default False). -/
def SendResult.okFlag (r : SendResult) : Bool := r.ok.getD false

/-- The per-candidate body of TweetProcessor.process_follower_tweets:
skip candidates already stored; otherwise store, record the analysis,
deliver, and mark as sent exactly when the delivery result has ok true.
The returned flag records whether mark_as_sent was invoked. -/
def process_new_tweet (db : DbState) (t : Tweet) (follower_id : Nat)
    (analysisText : String) (res : SendResult) (now : String) :
    DbState × Bool :=
  if tweet_exists db t.tweet_id then (db, false)
  else
    let db1 := (store_tweet db t follower_id).2
    let db2 := (update_analysis_result db1 t.tweet_id analysisText).2
    if res.okFlag then ((mark_as_sent db2 t.tweet_id now).2, true)
    else (db2, false)

/-- The per-item body of TweetProcessor.process_pending_tweets: deliver
and mark as sent exactly when the delivery result has ok true. The
returned flag records whether mark_as_sent was invoked. -/
def pending_step (db : DbState) (tid : String) (res : SendResult)
    (now : String) : DbState × Bool :=
  if res.okFlag then ((mark_as_sent db tid now).2, true) else (db, false)

/-- TweetProcessor.process_pending_tweets: fold the delivery step over the
unsent analyzed tweets, the delivery outcome given per tweet id by the
collaborator resOf. -/
def process_pending_tweets (db : DbState) (limit : Nat)
    (resOf : String → SendResult) (now : String) : DbState :=
  (get_unsent_analyzed_tweets db limit).foldl
    (fun acc e => (pending_step acc e.1.tweet_id (resOf e.1.tweet_id) now).1) db

/-- Whether one fetch attempt failed to produce candidates (any outcome
other than a non-empty parse). -/
def attemptFailed (o : AttemptOutcome) : Bool :=
  match o with
  | .parsed c => c.isEmpty
  | _ => true

/-- Concrete tweet used for the duplicate-store evaluation. -/
def dupTweet : Tweet :=
  { tweet_id := "t1", tweet_url := "u", tweet_content := "c",
    tweet_image := none, created_at := "2024" }

/-- Two-digit zero-padded decimal rendering, giving timestamp strings
whose lexicographic order is the numeric order. -/
def pad2 (n : Nat) : String := if n < 10 then "0" ++ toString n else toString n

/-- Item number i of the 15-item retention evaluation: strictly ascending
age, so item 1 is the newest (created_at 15) and item 15 the oldest
(created_at 01). -/
def mkT (i : Nat) : Tweet :=
  { tweet_id := "t" ++ toString i, tweet_url := "u" ++ toString i,
    tweet_content := "c" ++ toString i, tweet_image := none,
    created_at := pad2 (16 - i) }

/-- The 15-insert, mark-3-6-9, prune-10 operation sequence of the
retention evaluation, all for source 1. -/
def opsA : List DbOp :=
  ((List.range 15).map (fun j => DbOp.store (mkT (j + 1)) 1)) ++
    [DbOp.markSent "t3" "now", DbOp.markSent "t6" "now",
     DbOp.markSent "t9" "now", DbOp.prune 1 10]

/-- Raw table row i of the direct-state variant of the retention
evaluation: 15 rows already present (no store-triggered pruning), rows
3, 6 and 9 delivered, strictly ascending age. -/
def rawRow (i : Nat) : Row :=
  { rowid := i, follower_id := 1, tweet_id := "t" ++ toString i,
    tweet_url := "u", tweet_content := "c", tweet_image := none,
    created_at := pad2 (16 - i), is_analyzed := false,
    analysis_result := none,
    is_sent_to_telegram := i == 3 || i == 6 || i == 9, sent_at := none }

/-- Direct table state with the 15 raw rows. -/
def rawState : DbState :=
  { rows := (List.range 15).map (fun j => rawRow (j + 1)), nextId := 16 }

/-- Old unanalyzed, undelivered row i (created_at 10 through 19) for the
round-trip evaluation. -/
def oldRow (i : Nat) : Row :=
  { rowid := i, follower_id := 1, tweet_id := "o" ++ toString i,
    tweet_url := "u", tweet_content := "c", tweet_image := none,
    created_at := pad2 (9 + i), is_analyzed := false,
    analysis_result := none, is_sent_to_telegram := false, sent_at := none }

/-- State with ten newer rows for source 1, at the retention limit. -/
def s10 : DbState :=
  { rows := (List.range 10).map (fun j => oldRow (j + 1)), nextId := 11 }

/-- A tweet older than everything in s10. -/
def tNew : Tweet :=
  { tweet_id := "new", tweet_url := "nu", tweet_content := "nc",
    tweet_image := none, created_at := "01" }

/-- A delivered row used to evaluate prune survivorship. -/
def sentRow : Row :=
  { rowid := 1, follower_id := 1, tweet_id := "sent1",
    tweet_url := "u", tweet_content := "c", tweet_image := none,
    created_at := "05", is_analyzed := true, analysis_result := some "r",
    is_sent_to_telegram := true, sent_at := some "now" }

/-- One-row state holding only the delivered row. -/
def sentSt : DbState := { rows := [sentRow], nextId := 2 }

/-- HTML page matching no standard selector strategy: one anchor whose
href carries the post identifier 42, inside a classed div that also
holds a paragraph with the text hello. -/
def scenTree : Node :=
  Node.elem "[document]" [] [
    Node.elem "html" [] [
      Node.elem "body" [] [
        Node.elem "div" [("class", "post")] [
          Node.elem "p" [] [Node.text "hello"],
          Node.elem "a" [("href", "https://example.com/status/42")]
            [Node.text "link"]]]]]

/-- A timeline-header element that nevertheless carries a tweet id. -/
def hdrEl : Node :=
  Node.elem "div" [("class", "timeline-header"), ("data-tweet-id", "99")] []

/-- An element with a permalink whose status path carries no digits, so
no stable id can be resolved from it. -/
def permEl : Node :=
  Node.elem "div" [] [Node.elem "a" [("href", "/status/abc")] []]

/-- Pool of one mirror, rate limited until second 60. -/
def stA : MirrorState :=
  { mirrors := ["A"], working_mirrors := ["A"],
    rate_limited_until := [("A", 60)] }

/-- Pool of mirrors A and B, A rate limited until second 5. -/
def stAB : MirrorState :=
  { mirrors := ["A", "B"], working_mirrors := ["A", "B"],
    rate_limited_until := [("A", 5)] }

/-- Attempt oracle on which every attempt fails with a non-200 status. -/
def failOracle : Nat → String → AttemptOutcome := fun _ _ => .httpError

/-- Trivial mirror picker for concrete evaluations. -/
def pickM : MirrorState → String := fun _ => "m"

/-- Delivery result whose ok flag is false. -/
def resFail : SendResult := { ok := some false, error := some "err" }

end X2T

namespace X2T

/-- Totality of the lexicographic order. -/
theorem strLeList_total (a b : List Char) :
    strLeList a b = true ∨ strLeList b a = true := by
  induction a generalizing b with
  | nil => left; rfl
  | cons x xs ih =>
    cases b with
    | nil => right; rfl
    | cons y ys =>
      by_cases h1 : x.toNat < y.toNat
      · left; simp [strLeList, h1]
      · by_cases h2 : y.toNat < x.toNat
        · right; simp [strLeList, h1, h2]
        · rcases ih ys with h | h
          · left; simp [strLeList, h1, h2, h]
          · right; simp [strLeList, h1, h2, h]

/-- Head characterization of the lexicographic order. -/
theorem strLeList_cons_iff (x y : Char) (xs ys : List Char) :
    strLeList (x :: xs) (y :: ys) = true ↔
      x.toNat < y.toNat ∨ (x.toNat = y.toNat ∧ strLeList xs ys = true) := by
  simp only [strLeList]
  by_cases hlt : x.toNat < y.toNat
  · simp [hlt]
  · by_cases hgt : y.toNat < x.toNat
    · have hne : x.toNat ≠ y.toNat := by omega
      simp [hlt, hgt, hne]
    · have heq : x.toNat = y.toNat := by omega
      simp [hlt, hgt, heq]

/-- Transitivity of the lexicographic order. -/
theorem strLeList_trans (a b c : List Char) (h1 : strLeList a b = true)
    (h2 : strLeList b c = true) : strLeList a c = true := by
  induction a generalizing b c with
  | nil => rfl
  | cons x xs ih =>
    cases b with
    | nil => simp [strLeList] at h1
    | cons y ys =>
      cases c with
      | nil => simp [strLeList] at h2
      | cons z zs =>
        rw [strLeList_cons_iff] at h1 h2 ⊢
        rcases h1 with h1 | ⟨e1, r1⟩
        · rcases h2 with h2 | ⟨e2, r2⟩
          · left; omega
          · left; omega
        · rcases h2 with h2 | ⟨e2, r2⟩
          · left; omega
          · right; exact ⟨by omega, ih ys zs r1 r2⟩

/-- C1: storing the same tweet_id twice through store_tweet, the code
inserts a second row and returns a fresh internal id (the tweets_cache
schema has no UNIQUE constraint on tweet_id, so the IntegrityError branch
that would return None cannot fire). After the two calls there are two
rows with that tweet_id, and the second call returned internal id 2, not
the duplicate signal None. -/
theorem store_duplicate_second_row :
    (store_tweet emptyDb dupTweet 1).1 = some 1 ∧
    (store_tweet (store_tweet emptyDb dupTweet 1).2 dupTweet 1).1 = some 2 ∧
    (((store_tweet (store_tweet emptyDb dupTweet 1).2 dupTweet 1).2.rows.filter
        (fun r => r.tweet_id == "t1")).length = 2) := by
  decide

/-- C3 counterexample: inserting the 15 items of opsA (strictly ascending
age, source 1) through store_tweet, marking items 3, 6 and 9 delivered
and running prune with keep_count 10 leaves 10 items, not the 13 the
claim states. -/
theorem prune_scenario_not_thirteen :
    (runOps emptyDb opsA).rows.length = 10 ∧
    (runOps emptyDb opsA).rows.length ≠ 13 := by
  decide

/-- C3 amended: the survivor set is the union of the keep_count newest
items and the delivered items; here items 3, 6 and 9 are among the 10
newest, so exactly 10 items remain (t1 through t10), and items 3, 6 and 9
are among the survivors. The same union semantics on the raw 15-row state
also keeps exactly 10 rows under one cleanup_old_tweets call. -/
theorem prune_scenario_union_semantics :
    (runOps emptyDb opsA).rows.map (fun r => r.tweet_id) =
      ["t1", "t2", "t3", "t4", "t5", "t6", "t7", "t8", "t9", "t10"] ∧
    tweet_exists (runOps emptyDb opsA) "t3" = true ∧
    tweet_exists (runOps emptyDb opsA) "t6" = true ∧
    tweet_exists (runOps emptyDb opsA) "t9" = true ∧
    (cleanup_old_tweets rawState 1 10).2.rows.length = 10 := by
  decide

/-- C9: on a page matching no standard selector but containing one anchor
with the post identifier 42 and the nearby text hello, parse_nitter_html
returns exactly one candidate, with external id 42 and content containing
hello. -/
theorem generic_fallback_scenario :
    parse_nitter_html scenTree "https://m.example" "alice" 0 "2024" =
      [{ id := "42", url := "https://example.com/status/42",
         content := "hello", published := "2024", author := "alice",
         image := none }] ∧
    strContains "hello" "hello" = true := by
  constructor
  · rfl
  · rfl

/-- C10 counterexample: an element whose class contains timeline-header
is dropped by extract_tweet_data even though it carries a tweet id, so it
is not true that only elements with neither an id nor a permalink are
dropped. -/
theorem extract_drops_header_with_id :
    extract_tweet_data hdrEl "m" "u" 0 "now" = none ∧
    truthyO (attrOf hdrEl "data-tweet-id") = true := by
  decide

/-- C5 counterexample: with the single mirror A rate limited until second
60 and the current time 0, the required wait is exactly 60 seconds, which
does not exceed 60 — yet get_working_mirror resets the pool and returns
immediately instead of sleeping, because the code compares the wait plus
its one-second buffer against 60. -/
theorem mirror_reset_at_sixty :
    (get_working_mirror stA 0 0).1 = SelectOutcome.resetChosen "A" ∧
    ¬ ((60 : Int) - 0 > 60) := by
  decide

/-- Cleanup is the identity when the follower is at or below the keep
limit. -/
theorem cleanup_of_le (s : DbState) (fid k : Nat)
    (h : ¬ (fidRows s fid).length > k) :
    cleanup_old_tweets s fid k = (0, s) := by
  simp [cleanup_old_tweets, h]

/-- Cleanup is the identity when the keep set is empty. -/
theorem cleanup_of_empty (s : DbState) (fid k : Nat)
    (h1 : (fidRows s fid).length > k)
    (h2 : (keepIdsOf s fid k).isEmpty = true) :
    cleanup_old_tweets s fid k = (0, s) := by
  simp [cleanup_old_tweets, h1, h2]

/-- In the deleting branch, the surviving rows are exactly the rows of
other followers together with the rows of the keep set. -/
theorem cleanup_rows_of_gt (s : DbState) (fid k : Nat)
    (h1 : (fidRows s fid).length > k)
    (h2 : (keepIdsOf s fid k).isEmpty = false) :
    (cleanup_old_tweets s fid k).2.rows =
      s.rows.filter (fun r => !(r.follower_id == fid) ||
        (keepIdsOf s fid k).contains r.rowid) := by
  simp [cleanup_old_tweets, h1, h2]

/-- Cleanup never adds rows: the result is a sublist of the input rows. -/
theorem cleanup_sublist (s : DbState) (fid k : Nat) :
    List.Sublist (cleanup_old_tweets s fid k).2.rows s.rows := by
  by_cases h1 : (fidRows s fid).length > k
  · by_cases h2 : (keepIdsOf s fid k).isEmpty
    · rw [cleanup_of_empty s fid k h1 h2]
    · rw [cleanup_rows_of_gt s fid k h1 (by simpa using h2)]
      exact List.filter_sublist _
  · rw [cleanup_of_le s fid k h1]

/-- Cleanup keeps the AUTOINCREMENT counter. -/
theorem cleanup_nextId (s : DbState) (fid k : Nat) :
    (cleanup_old_tweets s fid k).2.nextId = s.nextId := by
  by_cases h1 : (fidRows s fid).length > k
  · by_cases h2 : (keepIdsOf s fid k).isEmpty
    · rw [cleanup_of_empty s fid k h1 h2]
    · simp [cleanup_old_tweets, h1, h2]
  · rw [cleanup_of_le s fid k h1]

/-- Every delivered row survives cleanup, whatever the keep count. -/
theorem cleanup_preserves_sent (s : DbState) (fid k : Nat) (r : Row)
    (hr : r ∈ s.rows) (hs : r.is_sent_to_telegram = true) :
    r ∈ (cleanup_old_tweets s fid k).2.rows := by
  by_cases h1 : (fidRows s fid).length > k
  · by_cases h2 : (keepIdsOf s fid k).isEmpty
    · rw [cleanup_of_empty s fid k h1 h2]; exact hr
    · rw [cleanup_rows_of_gt s fid k h1 (by simpa using h2)]
      refine List.mem_filter.mpr ⟨hr, ?_⟩
      by_cases hf : r.follower_id == fid
      · have hmem : r.rowid ∈ sentIdsOf s fid :=
          List.mem_map_of_mem _
            (List.mem_filter.mpr ⟨List.mem_filter.mpr ⟨hr, hf⟩, hs⟩)
        have hk : r.rowid ∈ keepIdsOf s fid k := List.mem_append_left _ hmem
        simp [hf, List.contains, hk]
      · simp [hf]
  · rw [cleanup_of_le s fid k h1]; exact hr

/-- The non-delivered count is bounded by the follower's row count. -/
theorem nonDel_le_fidRows (s : DbState) (fid : Nat) :
    nonDeliveredCount s fid ≤ (fidRows s fid).length := by
  unfold nonDeliveredCount fidRows
  rw [← List.countP_eq_length_filter, ← List.countP_eq_length_filter]
  apply List.countP_mono_left
  intro r _ h
  exact ((Bool.and_eq_true _ _).mp h).1

/-- The non-delivered count is monotone under row sublisting. -/
theorem nonDel_mono (s1 s2 : DbState) (h : List.Sublist s1.rows s2.rows)
    (fid : Nat) : nonDeliveredCount s1 fid ≤ nonDeliveredCount s2 fid := by
  unfold nonDeliveredCount
  rw [← List.countP_eq_length_filter, ← List.countP_eq_length_filter]
  exact h.countP_le _

/-- With a positive keep count and an over-limit follower, the keep set is
non-empty (the recent-rowids query returns at least one row). -/
theorem keepIds_ne_empty (s : DbState) (fid k : Nat) (hk : 0 < k)
    (h1 : (fidRows s fid).length > k) :
    (keepIdsOf s fid k).isEmpty = false := by
  have hlen : (sortByCreatedDesc (fidRows s fid)).length = (fidRows s fid).length :=
    (List.perm_insertionSort _ _).length_eq
  have hrec : (recentIdsOf s fid k).length = min k (fidRows s fid).length := by
    simp [recentIdsOf, List.length_take, hlen]
  cases hke : keepIdsOf s fid k with
  | nil =>
    exfalso
    have h0 : (keepIdsOf s fid k).length = 0 := by rw [hke]; rfl
    have hsum : (keepIdsOf s fid k).length =
        (sentIdsOf s fid).length + (recentIdsOf s fid k).length := by
      simp [keepIdsOf]
    omega
  | cons a l => rfl

/-- In the deleting branch with a positive keep count, the follower's
surviving non-delivered rows all come from the recent-rowids list, so
their number is at most the keep count. -/
theorem cleanup_nonDel_le (s : DbState) (fid k : Nat)
    (hw : (s.rows.map (fun r => r.rowid)).Nodup) (hk : 0 < k)
    (h1 : (fidRows s fid).length > k) :
    nonDeliveredCount (cleanup_old_tweets s fid k).2 fid ≤ k := by
  have h2 := keepIds_ne_empty s fid k hk h1
  unfold nonDeliveredCount
  rw [cleanup_rows_of_gt s fid k h1 h2]
  set L := (s.rows.filter (fun r => !(r.follower_id == fid) ||
      (keepIdsOf s fid k).contains r.rowid)).filter
    (fun r => r.follower_id == fid && !r.is_sent_to_telegram) with hL
  have hsub : List.Sublist L s.rows :=
    (List.filter_sublist _).trans (List.filter_sublist _)
  have hnd : (L.map (fun r => r.rowid)).Nodup :=
    hw.sublist (hsub.map _)
  have hss : L.map (fun r => r.rowid) ⊆ recentIdsOf s fid k := by
    intro x hx
    obtain ⟨r, hrL, hrx⟩ := List.mem_map.mp hx
    rw [hL] at hrL
    rcases List.mem_filter.mp hrL with ⟨hrQmem, hPr⟩
    rcases List.mem_filter.mp hrQmem with ⟨hrs, hQr⟩
    obtain ⟨hfid, hnsent⟩ := (Bool.and_eq_true _ _).mp hPr
    rw [hfid] at hQr
    simp only [Bool.not_true, Bool.false_or] at hQr
    have hkmem : r.rowid ∈ keepIdsOf s fid k := by
      simpa [List.contains] using hQr
    rcases List.mem_append.mp hkmem with hsent | hrec
    · exfalso
      obtain ⟨r2, hr2m, hr2e⟩ := List.mem_map.mp hsent
      rcases List.mem_filter.mp hr2m with ⟨hr2fid, hr2sent⟩
      rcases List.mem_filter.mp hr2fid with ⟨hr2rows, _⟩
      have heq : r2 = r := List.inj_on_of_nodup_map hw hr2rows hrs hr2e
      rw [heq] at hr2sent
      rw [hr2sent] at hnsent
      simp at hnsent
    · rw [← hrx]
      exact hrec
  have hle := (hnd.subperm hss).length_le
  rw [List.length_map] at hle
  have hrecle : (recentIdsOf s fid k).length ≤ k := by
    simp only [recentIdsOf, List.length_map, List.length_take]
    exact Nat.min_le_left _ _
  exact le_trans hle hrecle

/-- Cleanup preserves well-formedness. -/
theorem cleanup_WF (s : DbState) (fid k : Nat) (h : DbWF s) :
    DbWF (cleanup_old_tweets s fid k).2 := by
  obtain ⟨h1, h2⟩ := h
  refine ⟨h1.sublist ((cleanup_sublist s fid k).map _), ?_⟩
  intro r hr
  rw [cleanup_nextId]
  exact h2 r ((cleanup_sublist s fid k).subset hr)

/-- The INSERT of store_tweet preserves well-formedness (the fresh rowid
is above every stored rowid). -/
theorem insState_WF (s : DbState) (t : Tweet) (fid : Nat) (h : DbWF s) :
    DbWF (insState s t fid) := by
  obtain ⟨h1, h2⟩ := h
  constructor
  · simp only [insState, List.map_append]
    rw [List.nodup_append]
    refine ⟨h1, List.nodup_singleton _, ?_⟩
    intro a ha hb
    obtain ⟨r, hr, hra⟩ := List.mem_map.mp ha
    have hlt := h2 r hr
    simp only [List.map_cons, List.map_nil, List.mem_singleton, newRowOf] at hb
    omega
  · intro r hr
    simp only [insState] at hr ⊢
    rcases List.mem_append.mp hr with hm | hm
    · exact Nat.lt_succ_of_lt (h2 r hm)
    · simp only [List.mem_singleton] at hm
      rw [hm]
      simp [newRowOf]

/-- The INSERT leaves other followers' non-delivered counts unchanged. -/
theorem nonDel_insState_ne (s : DbState) (t : Tweet) (fid f : Nat)
    (hf : ¬ f = fid) :
    nonDeliveredCount (insState s t fid) f = nonDeliveredCount s f := by
  unfold nonDeliveredCount insState
  simp only [List.filter_append]
  have hone : ([newRowOf s t fid].filter
      (fun r => r.follower_id == f && !r.is_sent_to_telegram)) = [] := by
    simp only [List.filter, newRowOf]
    have hbeq : (fid == f) = false :=
      beq_eq_false_iff_ne.mpr (fun he => hf he.symm)
    simp [hbeq]
  rw [hone, List.append_nil]

/-- store_tweet preserves the retention invariant. -/
theorem store_preserves_inv (s : DbState) (t : Tweet) (fid : Nat)
    (h : DbInv s) : DbInv (store_tweet s t fid).2 := by
  obtain ⟨hWF, hB⟩ := h
  have hWF1 : DbWF (insState s t fid) := insState_WF s t fid hWF
  simp only [store_tweet]
  constructor
  · exact cleanup_WF _ fid 10 hWF1
  · intro f
    by_cases hgt : (fidRows (insState s t fid) fid).length > 10
    · by_cases hf : f = fid
      · subst hf
        exact cleanup_nonDel_le _ f 10 hWF1.1 (by omega) hgt
      · refine le_trans (nonDel_mono _ _ (cleanup_sublist _ fid 10) f) ?_
        rw [nonDel_insState_ne s t fid f hf]
        exact hB f
    · rw [cleanup_of_le _ fid 10 hgt]
      show nonDeliveredCount (insState s t fid) f ≤ 10
      by_cases hf : f = fid
      · subst hf
        refine le_trans (nonDel_le_fidRows _ _) ?_
        omega
      · rw [nonDel_insState_ne s t fid f hf]
        exact hB f

/-- mark_as_sent preserves the retention invariant (it can only turn
non-delivered rows into delivered ones). -/
theorem mark_preserves_inv (s : DbState) (tid now : String) (h : DbInv s) :
    DbInv (mark_as_sent s tid now).2 := by
  obtain ⟨⟨h1, h2⟩, hB⟩ := h
  simp only [mark_as_sent]
  refine ⟨⟨?_, ?_⟩, ?_⟩
  · rw [List.map_map]
    have hco : ((fun r : Row => r.rowid) ∘ (fun r =>
        if r.tweet_id == tid then
          { r with is_sent_to_telegram := true, sent_at := some now }
        else r)) = fun r : Row => r.rowid := by
      funext r
      by_cases ht : r.tweet_id = tid <;> simp [ht]
    rw [hco]
    exact h1
  · intro r hr
    obtain ⟨r0, hr0, hr0e⟩ := List.mem_map.mp hr
    have hlt := h2 r0 hr0
    have hre : r.rowid = r0.rowid := by
      rw [← hr0e]
      by_cases ht : r0.tweet_id = tid <;> simp [ht]
    show r.rowid < s.nextId
    omega
  · intro f
    refine le_trans ?_ (hB f)
    unfold nonDeliveredCount
    rw [← List.countP_eq_length_filter, ← List.countP_eq_length_filter]
    rw [List.countP_map]
    apply List.countP_mono_left
    intro r _ hpr
    by_cases ht : r.tweet_id = tid
    · exfalso
      simp [ht, Function.comp] at hpr
    · simpa [ht, Function.comp] using hpr

/-- cleanup_old_tweets preserves the retention invariant. -/
theorem prune_preserves_inv (s : DbState) (fid k : Nat) (h : DbInv s) :
    DbInv (cleanup_old_tweets s fid k).2 :=
  ⟨cleanup_WF s fid k h.1,
   fun f => le_trans (nonDel_mono _ _ (cleanup_sublist s fid k) f) (h.2 f)⟩

/-- Every operation preserves the retention invariant. -/
theorem applyOp_preserves_inv (s : DbState) (op : DbOp) (h : DbInv s) :
    DbInv (applyOp s op) := by
  cases op with
  | store t fid => exact store_preserves_inv s t fid h
  | markSent tid now => exact mark_preserves_inv s tid now h
  | prune fid k => exact prune_preserves_inv s fid k h

/-- The empty store satisfies the retention invariant. -/
theorem emptyDb_inv : DbInv emptyDb := by
  refine ⟨⟨List.nodup_nil, ?_⟩, ?_⟩
  · intro r hr
    simp [emptyDb] at hr
  · intro f
    simp [nonDeliveredCount, emptyDb]

/-- Any operation sequence from the empty store satisfies the retention
invariant. -/
theorem runOps_inv (ops : List DbOp) : DbInv (runOps emptyDb ops) := by
  have hgen : ∀ (l : List DbOp) (s : DbState), DbInv s →
      DbInv (l.foldl applyOp s) := by
    intro l
    induction l with
    | nil => intro s hs; exact hs
    | cons op l ih =>
      intro s hs
      exact ih _ (applyOp_preserves_inv s op hs)
  exact hgen ops emptyDb emptyDb_inv

/-- C2: after any sequence of store_tweet / mark_as_sent /
cleanup_old_tweets calls from the empty store, every source has at most
keep_count (the default, 10) non-delivered stored items; and no delivered
item present before a cleanup_old_tweets call is deleted by that call,
regardless of its age, of the keep count used, or of how many delivered
items exist. -/
theorem retention_invariant (ops : List DbOp) (fid : Nat) (s : DbState)
    (fid2 k : Nat) (r : Row) :
    nonDeliveredCount (runOps emptyDb ops) fid ≤ 10 ∧
    (r ∈ s.rows → r.is_sent_to_telegram = true →
      r ∈ (cleanup_old_tweets s fid2 k).2.rows) :=
  ⟨(runOps_inv ops).2 fid,
   fun h1 h2 => cleanup_preserves_sent s fid2 k r h1 h2⟩

/-- C2 witness: the invariant evaluated on the 15-item sequence, and
survivorship of a delivered row under a prune with keep count 0. -/
theorem retention_invariant_witness :
    nonDeliveredCount (runOps emptyDb opsA) 1 ≤ 10 ∧
    sentRow ∈ (cleanup_old_tweets sentSt 1 0).2.rows :=
  ⟨(retention_invariant opsA 1 sentSt 1 0 sentRow).1,
   (retention_invariant opsA 1 sentSt 1 0 sentRow).2 (by decide) (by decide)⟩

/-- The INSERT appends the new row to the follower's rows. -/
theorem fidRows_insState (s : DbState) (t : Tweet) (fid : Nat) :
    fidRows (insState s t fid) fid = fidRows s fid ++ [newRowOf s t fid] := by
  unfold fidRows insState
  rw [List.filter_append]
  congr 1
  simp [newRowOf]

/-- C4 counterexample: storing an old tweet into a source already holding
ten newer rows succeeds (internal id 11 is returned), but the
store-triggered cleanup deletes the stored row at once, so neither query
method returns it: the round-trip fails for a successfully stored item. -/
theorem roundtrip_counterexample :
    (store_tweet s10 tNew 1).1 = some 11 ∧
    ((get_unanalyzed_tweets (store_tweet s10 tNew 1).2 50).all
      (fun p => !(p.1.tweet_id == "new"))) = true ∧
    get_unsent_analyzed_tweets (store_tweet s10 tNew 1).2 50 = [] ∧
    tweet_exists (store_tweet s10 tNew 1).2 "new" = false := by
  decide

/-- C4 amended: a successfully stored item that survives the
store-triggered prune — in particular whenever its source held fewer than
keep_count (10) rows before the insert — is returned by
get_unanalyzed_tweets (for a limit at least the number of unanalyzed
rows) with all five fields equal to the stored input. -/
theorem roundtrip_amended (s : DbState) (t : Tweet) (fid limit : Nat)
    (h1 : (fidRows s fid).length < 10)
    (h2 : ((insState s t fid).rows.filter (fun r => !r.is_analyzed)).length ≤ limit) :
    (t, fid) ∈ get_unanalyzed_tweets (store_tweet s t fid).2 limit := by
  have hgt : ¬ (fidRows (insState s t fid) fid).length > 10 := by
    rw [fidRows_insState]
    simp only [List.length_append, List.length_cons, List.length_nil]
    omega
  have hstore : (store_tweet s t fid).2 = insState s t fid := by
    simp only [store_tweet]
    rw [cleanup_of_le _ fid 10 hgt]
  rw [hstore]
  unfold get_unanalyzed_tweets
  have hperm : List.Perm
      (sortByCreatedDesc ((insState s t fid).rows.filter (fun r => !r.is_analyzed)))
      ((insState s t fid).rows.filter (fun r => !r.is_analyzed)) :=
    List.perm_insertionSort _ _
  have htake :
      (sortByCreatedDesc ((insState s t fid).rows.filter (fun r => !r.is_analyzed))).take limit =
        sortByCreatedDesc ((insState s t fid).rows.filter (fun r => !r.is_analyzed)) :=
    List.take_of_length_le (by rw [hperm.length_eq]; exact h2)
  rw [htake]
  have hmemF : newRowOf s t fid ∈
      (insState s t fid).rows.filter (fun r => !r.is_analyzed) := by
    refine List.mem_filter.mpr ⟨?_, ?_⟩
    · simp [insState]
    · simp [newRowOf]
  have hmemS : newRowOf s t fid ∈
      sortByCreatedDesc ((insState s t fid).rows.filter (fun r => !r.is_analyzed)) :=
    hperm.mem_iff.mpr hmemF
  exact List.mem_map.mpr ⟨newRowOf s t fid, hmemS, rfl⟩

/-- C4 amended witness: round trip on the empty store. -/
theorem roundtrip_amended_witness :
    (dupTweet, 1) ∈ get_unanalyzed_tweets (store_tweet emptyDb dupTweet 1).2 50 :=
  roundtrip_amended emptyDb dupTweet 1 50 (by decide) (by decide)

/-- A random choice from a non-empty list is a member of it. -/
theorem choiceOf_mem (l : List String) (idx : Nat) (h : l.isEmpty = false) :
    choiceOf l idx ∈ l := by
  unfold choiceOf
  have hlen : 0 < l.length := by
    cases l with
    | nil => simp at h
    | cons a l => simp
  have hlt : idx % l.length < l.length := Nat.mod_lt _ hlen
  simp [List.getD_eq_getElem?_getD, List.getElem?_eq_getElem hlt]

/-- C5 amended: a mirror returned through the available branch is never
currently rate limited (its table entry is absent or expired) and the
state is untouched; when no mirror is available the selector computes the
minimum expiry, resets the pool and returns immediately exactly when the
required wait plus the one-second buffer exceeds 60 seconds (that is, the
soonest expiry is more than 59 seconds away), and otherwise blocks for
wait-plus-one seconds and retries; and with pool A, B where A is rate
limited until second 5, selection returns B (never A) at every time up to
second 5, for every random index. -/
theorem mirror_select_amended :
    (∀ (st : MirrorState) (now : Int) (idx : Nat) (m : String)
        (st2 : MirrorState),
      get_working_mirror st now idx = (.chosen m, st2) →
      st2 = st ∧
        (st.rate_limited_until.lookup m = none ∨
          ∃ t, st.rate_limited_until.lookup m = some t ∧ now > t)) ∧
    (∀ (st : MirrorState) (now : Int) (idx : Nat) (next : Int),
      (availableMirrors st now).isEmpty = true →
      minRateLimit st.rate_limited_until = some next →
      ((max 0 (next - now) + 1 > 60 →
          get_working_mirror st now idx =
            (.resetChosen (choiceOf st.mirrors idx),
             { st with
                 working_mirrors := st.mirrors
                 rate_limited_until := [] })) ∧
       (¬ max 0 (next - now) + 1 > 60 →
          get_working_mirror st now idx =
            (.sleepRetry (max 0 (next - now) + 1), st)))) ∧
    (∀ (t : Int) (idx : Nat), t ≤ 5 →
      (get_working_mirror stAB t idx).1 = .chosen "B") := by
  refine ⟨?_, ?_, ?_⟩
  · intro st now idx m st2 h
    unfold get_working_mirror at h
    by_cases hav : (availableMirrors st now).isEmpty
    · rw [if_pos hav] at h
      cases hmin : minRateLimit st.rate_limited_until with
      | none => rw [hmin] at h; simp at h
      | some next =>
        rw [hmin] at h
        split at h
        · simp at h
        · dsimp only [] at h
          split at h <;> simp at h
    · rw [if_neg hav] at h
      rw [Prod.mk.injEq] at h
      obtain ⟨hm, hst⟩ := h
      have hm2 : choiceOf (availableMirrors st now) idx = m := by
        injection hm
      refine ⟨hst.symm, ?_⟩
      have hmem : m ∈ availableMirrors st now := by
        rw [← hm2]
        exact choiceOf_mem _ idx (by simpa using hav)
      unfold availableMirrors at hmem
      have hp := (List.mem_filter.mp hmem).2
      cases hlk : st.rate_limited_until.lookup m with
      | none => exact Or.inl rfl
      | some tt =>
        right
        refine ⟨tt, rfl, ?_⟩
        rw [hlk] at hp
        simpa using hp
  · intro st now idx next hav hmin
    constructor
    · intro hgt
      simp [get_working_mirror, hav, hmin, hgt]
    · intro hle
      simp [get_working_mirror, hav, hmin, hle]
  · intro t idx ht
    have h5 : ¬ ((t : Int) > 5) := by omega
    simp [get_working_mirror, availableMirrors, stAB, List.lookup, h5,
      choiceOf, Nat.mod_one]

/-- C5 amended witness: with A rate limited, selection at time 0 returns
B. -/
theorem mirror_select_amended_witness :
    (get_working_mirror stAB 0 0).1 = SelectOutcome.chosen "B" :=
  mirror_select_amended.2.2 0 0 (by decide)

/-- C6: parse_nitter_html returns exactly the extracted candidates (from
the selector cascade or the generic fallback) sorted by published
timestamp descending; the sorting step is a total function of the
candidate list (all published fields are strings, whose comparison is
total, so the except-branch falling back to source order is unreachable
and no exception escapes), and it returns a permutation of its input. -/
theorem parse_sorted (root : Node) (mirror username : String) (now : Nat)
    (nowIso : String) (l : List Cand) :
    parse_nitter_html root mirror username now nowIso =
      sortCandidates
        (if (stdSelectorExtract root mirror username now nowIso
              standardSelectors).isEmpty = true
         then find_potential_tweets root mirror username nowIso
         else stdSelectorExtract root mirror username now nowIso
           standardSelectors) ∧
    (sortCandidates l).Sorted candDesc ∧
    List.Perm (sortCandidates l) l := by
  refine ⟨rfl, ?_, List.perm_insertionSort _ _⟩
  haveI : IsTotal Cand candDesc :=
    ⟨fun a b => strLeList_total b.published.toList a.published.toList⟩
  haveI : IsTrans Cand candDesc :=
    ⟨fun a b c hab hbc =>
      strLeList_trans c.published.toList b.published.toList
        a.published.toList hbc hab⟩
  exact List.sorted_insertionSort candDesc l

/-- C7: in both pipeline passes, mark_as_sent is invoked if and only if
the delivery result's ok flag is true (for the follower pass, on a
candidate actually processed, i.e. not already stored); on a delivery
failure the state of the pending pass is untouched and the freshly stored
item of the follower pass keeps is_sent_to_telegram false, so it is
picked up again on the next pass. -/
theorem delivery_marks_iff (db : DbState) (t : Tweet) (fid : Nat)
    (a now : String) (res : SendResult) (tid : String) :
    ((process_new_tweet db t fid a res now).2 = true ↔
      (tweet_exists db t.tweet_id = false ∧ res.okFlag = true)) ∧
    ((pending_step db tid res now).2 = true ↔ res.okFlag = true) ∧
    (res.okFlag = false → (pending_step db tid res now).1 = db) ∧
    (res.okFlag = false → tweet_exists db t.tweet_id = false →
      ∀ r ∈ (process_new_tweet db t fid a res now).1.rows,
        r.tweet_id = t.tweet_id → r.is_sent_to_telegram = false) := by
  refine ⟨?_, ?_, ?_, ?_⟩
  · unfold process_new_tweet
    by_cases he : tweet_exists db t.tweet_id
    · simp [he]
    · by_cases hok : res.okFlag
      · simp [he, hok]
      · simp [he, hok]
  · unfold pending_step
    by_cases hok : res.okFlag <;> simp [hok]
  · intro hok
    unfold pending_step
    simp [hok]
  · intro hok hne r hr hrt
    unfold process_new_tweet at hr
    rw [hne] at hr
    simp only [Bool.false_eq_true, if_false, hok, if_neg] at hr
    simp only [update_analysis_result] at hr
    obtain ⟨r0, hr0, hr0e⟩ := List.mem_map.mp hr
    have hsent : r.is_sent_to_telegram = r0.is_sent_to_telegram := by
      rw [← hr0e]
      by_cases hq : r0.tweet_id = t.tweet_id <;> simp [hq]
    have htid : r.tweet_id = r0.tweet_id := by
      rw [← hr0e]
      by_cases hq : r0.tweet_id = t.tweet_id <;> simp [hq]
    have hr0in : r0 ∈ (insState db t fid).rows := by
      have hsub : List.Sublist (store_tweet db t fid).2.rows
          (insState db t fid).rows := by
        simp only [store_tweet]
        exact cleanup_sublist _ fid 10
      exact hsub.subset hr0
    rcases List.mem_append.mp hr0in with hold | hnew
    · exfalso
      unfold tweet_exists at hne
      rw [List.any_eq_false] at hne
      have hfalse := hne r0 hold
      rw [htid] at hrt
      simp [hrt] at hfalse
    · simp only [List.mem_singleton] at hnew
      rw [hsent, hnew]
      simp [newRowOf]

/-- C7 witness: a failed delivery leaves the pending pass state
unchanged. -/
theorem delivery_marks_iff_witness :
    (pending_step emptyDb "x" resFail "n").1 = emptyDb :=
  (delivery_marks_iff emptyDb dupTweet 1 "a" "n" resFail "x").2.2.1 rfl

/-- C8: fetch_tweets_html rejects an empty username with the failed
result, and when every attempt fails (rate limiting, other HTTP errors,
network errors — all caught and turned into try-next — or an empty
parse), exhausting retry_count attempts yields the failed result (none,
embedding the Python (None, None)) rather than an exception, and
get_tweets yields the empty list. The embedded functions are total, so no
exception can escape. -/
theorem fetch_never_raises (oracle : Nat → String → AttemptOutcome)
    (pick : MirrorState → String) (username : String) (retry : Nat)
    (now : Int) (st : MirrorState)
    (hfail : ∀ a m, attemptFailed (oracle a m) = true) :
    fetch_tweets_html oracle pick username retry now st = none ∧
    get_tweets oracle pick username retry now st = [] := by
  have hloop : ∀ (fuel attempt : Nat) (st1 : MirrorState),
      fetchLoop oracle pick retry now attempt fuel st1 = none := by
    intro fuel
    induction fuel with
    | zero => intro attempt st1; rfl
    | succ fuel ih =>
      intro attempt st1
      by_cases hempty : (st1.working_mirrors.isEmpty && (attempt == retry - 1)) = true
      · simp only [fetchLoop]
        rw [if_pos hempty]
      · simp only [fetchLoop]
        rw [if_neg hempty]
        cases ho : oracle attempt
            (pick (if st1.working_mirrors.isEmpty = true
              then { st1 with working_mirrors := st1.mirrors } else st1)) with
        | rateLimited ra => exact ih _ _
        | httpError => exact ih _ _
        | netError => exact ih _ _
        | parsed c =>
          have hc := hfail attempt
            (pick (if st1.working_mirrors.isEmpty = true
              then { st1 with working_mirrors := st1.mirrors } else st1))
          rw [ho] at hc
          have hcnil : c = [] := by
            cases c with
            | nil => rfl
            | cons a l => simp [attemptFailed] at hc
          subst hcnil
          exact ih _ _
  have hfetch : fetch_tweets_html oracle pick username retry now st = none := by
    unfold fetch_tweets_html
    by_cases hu : username = ""
    · simp [hu]
    · simp [hu, hloop]
  refine ⟨hfetch, ?_⟩
  unfold get_tweets
  rw [hfetch]

/-- C8 witness: the all-failing oracle yields the failed result and the
empty tweet list. -/
theorem fetch_never_raises_witness :
    fetch_tweets_html failOracle pickM "alice" 10 0 stAB = none ∧
    get_tweets failOracle pickM "alice" 10 0 stAB = [] :=
  fetch_never_raises failOracle pickM "alice" 10 0 stAB (fun _ _ => rfl)

/-- A truthy optional string is a non-empty string. -/
theorem truthyO_getD_ne (o : Option String) (h : truthyO o = true) :
    o.getD "" ≠ "" := by
  cases o with
  | none => simp [truthyO] at h
  | some s =>
    simp only [truthyO] at h
    intro he
    simp only [Option.getD_some] at he
    rw [he] at h
    simp at h

/-- The synthetic unknown_ identifier is never empty. -/
theorem unknownId_ne (n : Nat) : ("unknown_" ++ toString n) ≠ "" := by
  intro he
  have hd := congrArg String.data he
  rw [String.data_append] at hd
  have h1 := (List.append_eq_nil.mp hd).1
  have h2 : ("unknown_" : String).data ≠ [] := by decide
  exact h2 h1

/-- The fallback status url is never empty. -/
theorem fallbackUrl_ne (mirror username rest : String) :
    (mirror ++ "/" ++ username ++ "/status/" ++ rest) ≠ "" := by
  intro he
  have hd := congrArg String.data he
  simp only [String.data_append] at hd
  rcases List.append_eq_nil.mp hd with ⟨hd1, _⟩
  rcases List.append_eq_nil.mp hd1 with ⟨_, hd3⟩
  have h2 : ("/status/" : String).data ≠ [] := by decide
  exact h2 hd3

/-- C10 amended: every candidate extract_tweet_data returns has a
non-empty id and a non-empty url; an element that is not a timeline
header and has no resolvable stable id but does have a permalink is still
returned, with the synthetic time-derived id unknown_ followed by the
epoch seconds; and an element is dropped exactly when it is a timeline
header or has neither a truthy id nor a truthy permalink. -/
theorem extract_nonempty_amended (el : Node) (mirror username : String)
    (now : Nat) (nowIso : String) :
    (∀ c, extract_tweet_data el mirror username now nowIso = some c →
      c.id ≠ "" ∧ c.url ≠ "") ∧
    (isTimelineHeader el = false → truthyO (resolveTweetId el) = false →
      truthyO (resolveTweetUrl el) = true →
      ∃ c, extract_tweet_data el mirror username now nowIso = some c ∧
        c.id = "unknown_" ++ toString now) ∧
    (extract_tweet_data el mirror username now nowIso = none ↔
      (isTimelineHeader el = true ∨
        (truthyO (resolveTweetId el) = false ∧
          truthyO (resolveTweetUrl el) = false))) := by
  refine ⟨?_, ?_, ?_⟩
  · intro c hc
    unfold extract_tweet_data at hc
    by_cases hh : isTimelineHeader el
    · rw [if_pos hh] at hc
      exact absurd hc (by simp)
    · rw [if_neg hh] at hc
      by_cases hg : (!truthyO (resolveTweetId el) &&
          !truthyO (resolveTweetUrl el)) = true
      · rw [if_pos hg] at hc
        exact absurd hc (by simp)
      · rw [if_neg hg] at hc
        have hcc := Option.some.inj hc
        subst hcc
        constructor
        · show extractedId el now ≠ ""
          unfold extractedId
          by_cases h1 : truthyO (resolveTweetId el)
          · rw [if_pos h1]
            exact truthyO_getD_ne _ h1
          · rw [if_neg h1]
            exact unknownId_ne now
        · show extractedUrl el mirror username ≠ ""
          unfold extractedUrl
          by_cases h3 : truthyO (extractedUrlAbs el mirror)
          · rw [if_pos h3]
            exact truthyO_getD_ne _ h3
          · rw [if_neg h3]
            exact fallbackUrl_ne _ _ _
  · intro hh h1 h2
    have hext : extract_tweet_data el mirror username now nowIso =
        some
          { id := extractedId el now
            url := extractedUrl el mirror username
            content := contentCascade el contentSelectors
            published := publishedCascade el nowIso timeSelectors
            author := authorCascade el username authorSelectors
            image := imageCascade el mirror imageSelectors } := by
      unfold extract_tweet_data
      rw [if_neg (by simp [hh]), if_neg (by simp [h1, h2])]
    refine ⟨_, hext, ?_⟩
    show extractedId el now = "unknown_" ++ toString now
    unfold extractedId
    rw [if_neg (by simp [h1])]
  · constructor
    · intro hnone
      unfold extract_tweet_data at hnone
      by_cases hh : isTimelineHeader el
      · exact Or.inl hh
      · rw [if_neg hh] at hnone
        by_cases hg : (!truthyO (resolveTweetId el) &&
            !truthyO (resolveTweetUrl el)) = true
        · right
          obtain ⟨hg1, hg2⟩ := (Bool.and_eq_true _ _).mp hg
          constructor
          · simpa using hg1
          · simpa using hg2
        · rw [if_neg hg] at hnone
          exact absurd hnone (by simp)
    · intro hor
      unfold extract_tweet_data
      rcases hor with hh | ⟨h1, h2⟩
      · rw [if_pos hh]
      · by_cases hh : isTimelineHeader el
        · rw [if_pos hh]
        · rw [if_neg hh, if_pos (by simp [h1, h2])]

/-- C10 amended witness: the element with a digitless status permalink is
returned with the synthetic id. -/
theorem extract_nonempty_amended_witness :
    ∃ c, extract_tweet_data permEl "m" "u" 7 "now" = some c ∧
      c.id = "unknown_" ++ toString 7 :=
  (extract_nonempty_amended permEl "m" "u" 7 "now").2.1 rfl rfl rfl

end X2T
